import Mathlib

/-!
Verification development for the SINDIPRO financial fee-apportionment and
account-ledger reconciliation engine (`financials` app plus the budget-health
flag of `reporting/new_visual_sections.py`).

Numeric amounts (Django `DecimalField` / Python numbers) are embedded as `ℚ`.
Month / period keys (`YYYY-MM` or `YYYY` strings compared lexicographically in
the code) are embedded as `String` with the lexicographic order.
Fallible request handlers return `Except ApiError _`.
-/

/-- Error taxonomy of the API layer (HTTP 400 validation errors, 404 not-found
responses, and similar structured failures). -/
inductive ApiError where
  | notFound (msg : String)
  | validation (msg : String)
  | badRequest (msg : String)
deriving DecidableEq, Repr

/-- Round a rational to 2 decimal places with half-up rounding
(the spec's reading of Python's `round(x, 2)` in the fee calculator). -/
def round2 (x : ℚ) : ℚ := (⌊x * 100 + 1/2⌋ : ℚ) / 100

/-- Round a rational to 6 decimal places with half-up rounding
(`round(total_fraction, 6)` in `validate_fractions_view`). -/
def round6 (x : ℚ) : ℚ := (⌊x * 1000000 + 1/2⌋ : ℚ) / 1000000

/-! ## Data model (src/financials/models.py, src/building_mgmt) -/

/-- `financials.models.FinancialMainAccount` (chart-of-accounts row).
`balance_type` is written by `FinancialMainAccountSerializer`
(source='balance_type'); the model class shown in src/financials/models.py
predates that field, so it is carried here as the serializer stores it. -/
structure FinancialMainAccount where
  id : Nat
  building_id : Nat
  code : String
  name : String
  type : String
  parent_id : Option Nat
  expected_amount : ℚ
  actual_amount : ℚ
  balance_type : String
deriving DecidableEq, Repr

/-- Modelled from the spec: the `FinancialAccountTransaction` model class is
absent from src/financials/models.py (only its serializer and views are in
src). Fields follow §3 "Transaction" and the fields used by
`FinancialAccountTransactionSerializer`: one posting against one account,
for one building, with a signed amount and a `YYYY-MM` reference month. -/
structure FinancialAccountTransaction where
  id : Nat
  account_id : Nat
  building_id : Nat
  amount : ℚ
  reference_month : String
  description : String
deriving DecidableEq, Repr

/-- `financials.models.RevenueAccount`: fixed monthly revenue line with a
validity window and extension flag. -/
structure RevenueAccount where
  id : Nat
  building_id : Nat
  account_id : Option Nat
  account_name : String
  monthly_amount : ℚ
  start_month : String
  end_month : String
  fiscal_year_start : String
  fiscal_year_end : String
  is_extended : Bool
deriving DecidableEq, Repr

/-- `financials.models.ExpenseEntry`: monthly expense bucketed into a parent
account, with the derived `is_outside_fiscal_period` flag. -/
structure ExpenseEntry where
  id : Nat
  building_id : Nat
  parent_account : String
  account_name : String
  amount : ℚ
  reference_month : String
  description : String
  is_outside_fiscal_period : Bool
deriving DecidableEq, Repr

/-- `financials.models.AdditionalCharge`: apportionable extra charge for one
reference month with an `active` flag. -/
structure AdditionalCharge where
  id : Nat
  building_id : Nat
  name : String
  description : String
  total_amount : ℚ
  reference_month : String
  active : Bool
deriving DecidableEq, Repr

namespace building_mgmt

/-- `building_mgmt.models.Unit` (external entity, consumed read-only): unit
number, optional owner, and the ideal-fraction apportionment weight. -/
structure Unit where
  id : Nat
  building_id : Nat
  number : String
  owner : Option String
  ideal_fraction : ℚ
deriving DecidableEq, Repr

end building_mgmt

/-! ## Ledger operations
(`FinancialAccountTransactionSerializer.create` / `.update`,
`account_transaction_detail_view` DELETE branch, src/financials) -/

/-- The relational store the ledger operations act on: the
`FinancialMainAccount` rows and `FinancialAccountTransaction` rows. -/
structure LedgerState where
  accounts : List FinancialMainAccount
  transactions : List FinancialAccountTransaction
deriving DecidableEq, Repr

/-- `FinancialMainAccount.objects.get(id=aid)` (first row with that id). -/
def findAccount (accounts : List FinancialMainAccount) (aid : Nat) : Option FinancialMainAccount :=
  accounts.find? (fun a => a.id = aid)

/-- Add `d` to the `actual_amount` of the account row(s) with id `aid`
(the read-modify-write `account.actual_amount += d; account.save()`). -/
def adjustAccount (accounts : List FinancialMainAccount) (aid : Nat) (d : ℚ) :
    List FinancialMainAccount :=
  accounts.map (fun a => if a.id = aid then { a with actual_amount := a.actual_amount + d } else a)

/-- `FinancialAccountTransactionSerializer.create`: create the transaction row,
then `account.actual_amount += transaction.amount; account.save()`.
`tid` is the fresh primary key assigned by the database; the operation fails
(no state change) if the referenced account does not exist. -/
def postTransaction (s : LedgerState) (tid aid bid : Nat) (amount : ℚ)
    (reference_month description : String) : Option LedgerState :=
  if tid ∈ s.transactions.map (·.id) then none
  else match findAccount s.accounts aid with
    | none => none
    | some _ => some
        { accounts := adjustAccount s.accounts aid amount,
          transactions :=
            ⟨tid, aid, bid, amount, reference_month, description⟩ :: s.transactions }

/-- The partial update payload of a PUT on
`account_transaction_detail_view` (`partial=True` serializer). -/
structure TransactionPatch where
  account_id : Option Nat
  amount : Option ℚ
  reference_month : Option String
  description : Option String
deriving DecidableEq, Repr

/-- The field rewrite at the end of
`FinancialAccountTransactionSerializer.update`: `instance.account_id`,
`instance.amount` are overwritten, `reference_month` and `description`
fall back to the instance's current values. -/
def applyPatch (t : FinancialAccountTransaction) (new_account_id : Nat) (new_amount : ℚ)
    (patch : TransactionPatch) : FinancialAccountTransaction :=
  { t with
    account_id := new_account_id,
    amount := new_amount,
    reference_month := patch.reference_month.getD t.reference_month,
    description := patch.description.getD t.description }

/-- `FinancialAccountTransactionSerializer.update`: if the account changes,
remove the old amount from the old account and add the new amount to the new
account; otherwise add only the difference `new_amount - old_amount` to the
account. Fails (no state change) when the transaction or a referenced
account row is missing. -/
def updateTransaction (s : LedgerState) (tid : Nat) (patch : TransactionPatch) :
    Option LedgerState :=
  match s.transactions.find? (fun t => t.id = tid) with
  | none => none
  | some inst =>
    match findAccount s.accounts inst.account_id with
    | none => none
    | some _old_account =>
      let new_account_id := patch.account_id.getD inst.account_id
      let new_amount := patch.amount.getD inst.amount
      let transactions' := s.transactions.map
        (fun u => if u.id = tid then applyPatch u new_account_id new_amount patch else u)
      if new_account_id = inst.account_id then
        some { accounts := adjustAccount s.accounts inst.account_id (new_amount - inst.amount),
               transactions := transactions' }
      else
        match findAccount s.accounts new_account_id with
        | none => none
        | some _new_account =>
          some { accounts :=
                   adjustAccount (adjustAccount s.accounts inst.account_id (-inst.amount))
                     new_account_id new_amount,
                 transactions := transactions' }

/-- DELETE branch of `account_transaction_detail_view`:
`account.actual_amount -= transaction.amount; account.save(); transaction.delete()`. -/
def deleteTransaction (s : LedgerState) (tid : Nat) : Option LedgerState :=
  match s.transactions.find? (fun t => t.id = tid) with
  | none => none
  | some t =>
    match findAccount s.accounts t.account_id with
    | none => none
    | some _ =>
      some { accounts := adjustAccount s.accounts t.account_id (-t.amount),
             transactions := s.transactions.filter (fun u => ¬ u.id = tid) }

/-- One API request against the ledger. -/
inductive LedgerOp where
  | post (tid aid bid : Nat) (amount : ℚ) (reference_month description : String)
  | update (tid : Nat) (patch : TransactionPatch)
  | delete (tid : Nat)
deriving DecidableEq, Repr

def stepLedger (s : LedgerState) : LedgerOp → Option LedgerState
  | .post tid aid bid amount m d => postTransaction s tid aid bid amount m d
  | .update tid p => updateTransaction s tid p
  | .delete tid => deleteTransaction s tid

/-- A failed request (404 / integrity error) leaves the store unchanged. -/
def applyLedger (s : LedgerState) (op : LedgerOp) : LedgerState :=
  (stepLedger s op).getD s

/-- Run a finite sequence of post/update/delete requests. -/
def runLedger (s : LedgerState) (ops : List LedgerOp) : LedgerState :=
  ops.foldl applyLedger s

/-- Sum of the amounts of the (non-deleted) transactions referencing
account `aid`. -/
def txSum (ts : List FinancialAccountTransaction) (aid : Nat) : ℚ :=
  ((ts.filter (fun t => t.account_id = aid)).map (·.amount)).sum

/-- Ledger consistency: every account's `actual_amount` equals the sum of the
amounts of the non-deleted transactions currently referencing it. -/
def ledgerInvariant (s : LedgerState) : Prop :=
  ∀ a ∈ s.accounts, a.actual_amount = txSum s.transactions a.id

/-- Transaction primary keys are pairwise distinct (database primary key). -/
def txIdsNodup (s : LedgerState) : Prop :=
  (s.transactions.map (·.id)).Nodup

/-! ## Revenue extension (`extend_revenue_view`, src/financials/views.py) -/

/-- `extend_revenue_view` POST on an existing revenue row: reject a missing or
empty `extend_to_month` (Python falsiness check), otherwise set
`end_month := extend_to_month` and `is_extended := True` and save. -/
def extend_revenue_view (r : RevenueAccount) (extend_to_month : Option String) :
    Except ApiError RevenueAccount :=
  match extend_to_month with
  | none => .error (.badRequest "extend_to_month is required")
  | some m =>
    if m = "" then .error (.badRequest "extend_to_month is required")
    else .ok { r with end_month := m, is_extended := true }

/-! ## Fee apportionment (`calculate_fees_view`, `validate_fractions_view`) -/

/-- One entry of the `unit_fees` list built by `calculate_fees_view`. -/
structure UnitFee where
  unitId : Nat
  unitNumber : String
  ownerName : String
  idealFraction : ℚ
  regularFee : ℚ
  additionalFee : ℚ
  totalFee : ℚ
deriving DecidableEq, Repr

/-- The JSON payload of a successful `calculate_fees_view` response. -/
structure FeesResponse where
  buildingId : Nat
  referenceMonth : String
  totalRegularBudget : ℚ
  totalAdditionalCharges : ℚ
  totalMonthlyCollection : ℚ
  totalIdealFraction : ℚ
  isIdealFractionValid : Bool
  unitFees : List UnitFee
deriving DecidableEq, Repr

/-- The regular-budget loop of `calculate_fees_view`: starting from
`Decimal('0.00')`, add `revenue.monthly_amount` whenever
`revenue.start_month <= reference_month[:4] <= revenue.end_month`
(lexicographic string comparison). -/
def total_regular_budget_calc (revenue_accounts : List RevenueAccount)
    (reference_month : String) : ℚ :=
  revenue_accounts.foldl
    (fun acc r =>
      let reference_year := reference_month.take 4
      if r.start_month ≤ reference_year ∧ reference_year ≤ r.end_month then
        acc + r.monthly_amount
      else acc)
    0

/-- `calculate_fees_view`: 404 when the building has no units; otherwise sum the
covering revenue accounts, the active additional charges of the exact reference
month, and apportion by each unit's ideal fraction, rounding each fee to two
decimal places. -/
def calculate_fees_view (units : List building_mgmt.Unit)
    (revenue_accounts : List RevenueAccount) (additional_charges : List AdditionalCharge)
    (building_id : Nat) (reference_month : String) : Except ApiError FeesResponse :=
  let units := units.filter (fun u => u.building_id = building_id)
  if units.isEmpty then .error (.notFound "No units found for this building")
  else
    let total_ideal_fraction := (units.map (·.ideal_fraction)).sum
    let is_fraction_valid := decide (|total_ideal_fraction - 1| < (1/10000 : ℚ))
    let total_regular_budget :=
      total_regular_budget_calc
        (revenue_accounts.filter (fun r => r.building_id = building_id)) reference_month
    let total_additional_charges :=
      ((additional_charges.filter
          (fun c => c.building_id = building_id ∧ c.reference_month = reference_month ∧ c.active)).map
        (·.total_amount)).sum
    let total_monthly_collection := total_regular_budget + total_additional_charges
    .ok
      { buildingId := building_id
        referenceMonth := reference_month
        totalRegularBudget := total_regular_budget
        totalAdditionalCharges := total_additional_charges
        totalMonthlyCollection := total_monthly_collection
        totalIdealFraction := total_ideal_fraction
        isIdealFractionValid := is_fraction_valid
        unitFees := units.map (fun u =>
          let ideal_fraction := u.ideal_fraction
          let regular_fee := total_regular_budget * ideal_fraction
          let additional_fee := total_additional_charges * ideal_fraction
          let total_fee := regular_fee + additional_fee
          { unitId := u.id
            unitNumber := u.number
            ownerName := u.owner.getD ""
            idealFraction := ideal_fraction
            regularFee := round2 regular_fee
            additionalFee := round2 additional_fee
            totalFee := round2 total_fee }) }

/-- The JSON payload of a `validate_fractions_view` response. -/
structure FractionsResponse where
  isValid : Bool
  totalFraction : ℚ
  unitCount : Nat
deriving DecidableEq, Repr

/-- `validate_fractions_view`: with zero units answer
`{isValid: true, totalFraction: 0.0, unitCount: 0}`; otherwise check
`|total_fraction - 1.0| < 0.0001` and report the rounded total. -/
def validate_fractions_view (units : List building_mgmt.Unit) (building_id : Nat) :
    FractionsResponse :=
  let units := units.filter (fun u => u.building_id = building_id)
  if units.isEmpty then { isValid := true, totalFraction := 0, unitCount := 0 }
  else
    let total_fraction := (units.map (·.ideal_fraction)).sum
    { isValid := decide (|total_fraction - 1| < (1/10000 : ℚ))
      totalFraction := round6 total_fraction
      unitCount := units.length }

/-! ## Expense entries (`ExpenseEntry.save`, src/financials/models.py) -/

/-- `ExpenseEntry.save`: the building FK is always set, so the guard
`if self.building` holds; when the building has revenue accounts, take the
fiscal window from the first one and recompute the derived flag; when it has
none, the field is left untouched and the row is saved as-is.
`revenue_accounts` is `self.building.revenue_accounts.all()` in its model
ordering. -/
def ExpenseEntry.save (e : ExpenseEntry) (revenue_accounts : List RevenueAccount) :
    ExpenseEntry :=
  match revenue_accounts with
  | [] => e
  | first :: _ =>
    { e with is_outside_fiscal_period :=
        decide (e.reference_month < first.fiscal_year_start ∨
                first.fiscal_year_end < e.reference_month) }

/-- `ExpenseEntrySerializer.create` → `ExpenseEntry.objects.create(...)`:
a fresh row (model default `is_outside_fiscal_period = False`) is built and
then saved, which runs `ExpenseEntry.save`. -/
def ExpenseEntry.create (id building_id : Nat) (parent_account account_name : String)
    (amount : ℚ) (reference_month description : String)
    (revenue_accounts : List RevenueAccount) : ExpenseEntry :=
  ExpenseEntry.save
    { id := id, building_id := building_id, parent_account := parent_account,
      account_name := account_name, amount := amount,
      reference_month := reference_month, description := description,
      is_outside_fiscal_period := false }
    revenue_accounts

/-! ## Budget-health flag (`generate_financial_charts`,
src/reporting/new_visual_sections.py, lines 63-101) -/

/-- One entry of the `monthlyData` list consumed by the report section
(the `totalExpense` value read via `m.get('totalExpense', 0)`). -/
structure MonthlyEntry where
  month : String
  totalExpense : ℚ
deriving DecidableEq, Repr

/-- Tri-state budget-health flag. -/
inductive BudgetFlag where
  | green
  | yellow
  | red
deriving DecidableEq, Repr

/-- The projection block of `generate_financial_charts`: count the completed
months (positive total expense), and when there is at least one and the total
revenue is positive, project the annual spend and classify it as
green / yellow / red; otherwise produce no flag. -/
def budget_health_flag (monthly_data : List MonthlyEntry) (total_revenue : ℚ) :
    Option BudgetFlag :=
  let total_expense := (monthly_data.map (·.totalExpense)).sum
  let completed_months := (monthly_data.filter (fun m => 0 < m.totalExpense)).length
  if 0 < completed_months ∧ 0 < total_revenue then
    let avg_monthly_spending := total_expense / (completed_months : ℚ)
    let total_months := monthly_data.length
    let projected_annual := avg_monthly_spending * (total_months : ℚ)
    let percentage := ((projected_annual / total_revenue) * 100) - 100
    some (if projected_annual ≤ total_revenue then .green
          else if percentage ≤ 20 then .yellow
          else .red)
  else none

/-! ## Account and balance creation (`financial_account_view` POST,
`account_balance_view` POST, src/financials) -/

/-- The write fields accepted by `FinancialMainAccountSerializer`
(`balanceType` defaults to `'ordinary'`; the serializer declares **no**
`balanceName` field, so any such key in the request body is ignored). -/
structure CreateAccountRequest where
  buildingId : Nat
  code : String
  name : String
  type : String
  parentId : Option Nat
  actualAmount : ℚ
  expectedAmount : ℚ
  balanceType : Option String
deriving DecidableEq, Repr

/-- `financial_account_view` POST: `FinancialMainAccountSerializer` has no
custom `validate`; the only rejection it can produce beyond field-shape checks
is the unique-together validator on `(building, code)`. On success the account
row is created with the requested amounts and balance type. `nextId` is the
database-assigned primary key. -/
def financial_account_view_post (existing : List FinancialMainAccount) (nextId : Nat)
    (req : CreateAccountRequest) : Except ApiError FinancialMainAccount :=
  if existing.any (fun a => a.building_id = req.buildingId ∧ a.code = req.code) then
    .error (.validation "The fields building, code must make a unique set.")
  else
    .ok { id := nextId, building_id := req.buildingId, code := req.code,
          name := req.name, type := req.type, parent_id := req.parentId,
          expected_amount := req.expectedAmount, actual_amount := req.actualAmount,
          balance_type := req.balanceType.getD "ordinary" }

/-- Modelled from the spec: the `AccountBalance` model class in
src/financials/models.py predates the `balance_type`, `balance_name` and
`delinquency` fields used by `AccountBalanceSerializer`; the fields here follow
§3 "AccountBalance" (point-in-time snapshot with balance, delinquency and
balance classification) and the serializer's field list. -/
structure AccountBalance where
  id : Nat
  building_id : Nat
  account_name : String
  reference_month : String
  balance : ℚ
  delinquency : ℚ
  balance_type : String
  balance_name : String
deriving DecidableEq, Repr

/-- The write fields accepted by `AccountBalanceSerializer`
(`balanceType` defaults to `'ordinary'`; `balanceName` is optional and may be
blank). -/
structure AccountBalanceRequest where
  buildingId : Nat
  accountName : String
  referenceMonth : String
  balance : ℚ
  delinquency : ℚ
  balanceType : Option String
  balanceName : Option String
deriving DecidableEq, Repr

/-- `AccountBalanceSerializer.validate`: an extraordinary balance with a
missing or empty `balance_name` is rejected with a `ValidationError`. -/
def AccountBalanceSerializer_validate (data : AccountBalanceRequest) :
    Except ApiError AccountBalanceRequest :=
  let balance_type := data.balanceType.getD "ordinary"
  let balance_name := data.balanceName.getD ""
  if balance_type = "extraordinary" ∧ balance_name = "" then
    .error (.validation "Balance name is required for extraordinary balances")
  else .ok data

/-- `account_balance_view` POST: run the serializer validation; only when it
passes is the `AccountBalance` row created. -/
def account_balance_view_post (nextId : Nat) (req : AccountBalanceRequest) :
    Except ApiError AccountBalance :=
  match AccountBalanceSerializer_validate req with
  | .error e => .error e
  | .ok data =>
    .ok { id := nextId, building_id := data.buildingId,
          account_name := data.accountName, reference_month := data.referenceMonth,
          balance := data.balance, delinquency := data.delinquency,
          balance_type := data.balanceType.getD "ordinary",
          balance_name := data.balanceName.getD "" }

/-- The `completed_months` local of the projection block: number of months in
the window whose total expense is positive. -/
def completed_months (monthly_data : List MonthlyEntry) : Nat :=
  (monthly_data.filter (fun m => 0 < m.totalExpense)).length

/-- The `projected_annual` local of the projection block:
`(total_expense / completed_months) * total_months`. -/
def projected_annual (monthly_data : List MonthlyEntry) : ℚ :=
  ((monthly_data.map (·.totalExpense)).sum / (completed_months monthly_data : ℚ)) *
    ((monthly_data.length : ℚ))

/-- The overrun percentage, in the spec's form
`(projectedAnnual / totalRevenue - 1) × 100`. -/
def overrun_pct (monthly_data : List MonthlyEntry) (total_revenue : ℚ) : ℚ :=
  (projected_annual monthly_data / total_revenue - 1) * 100

/-! ## Theorems -/

/-- Successful extensions are exactly the calls with a non-empty month; the
result overwrites `end_month` and sets `is_extended`. -/
theorem extend_revenue_view_ok (r : RevenueAccount) (m : Option String)
    (r' : RevenueAccount) (h : extend_revenue_view r m = .ok r') :
    ∃ v, m = some v ∧ v ≠ "" ∧ r' = { r with end_month := v, is_extended := true } := by
  cases m with
  | none => simp [extend_revenue_view] at h
  | some v =>
    by_cases hv : v = ""
    · simp [extend_revenue_view, hv] at h
    · refine ⟨v, rfl, hv, ?_⟩
      simpa [extend_revenue_view, hv] using h.symm

/-- C3 counterexample: a successful `extendRevenue` call can move the end
period backwards. Starting from `end_month = "2024"`, extending to `"2020"`
succeeds and the resulting end period is strictly smaller than before. -/
theorem C3_counterexample :
    extend_revenue_view ⟨1, 1, none, "1.1 - Taxa", 1000, "2024", "2024", "2024", "2024", false⟩
        (some "2020") =
      .ok ⟨1, 1, none, "1.1 - Taxa", 1000, "2024", "2020", "2024", "2024", true⟩ ∧
    ("2020" : String) < "2024" := by
  refine ⟨rfl, ?_⟩
  rw [String.lt_iff_toList_lt]
  decide

/-- C3 (amended): a successful `extendRevenue(id, newEndPeriod)` sets the end
period to exactly the requested `newEndPeriod` — which may be smaller than the
end period before the call, since the view performs no monotonicity check —
and `is_extended` is `true` afterwards and remains `true` after any further
successful extension. -/
theorem C3_extend_sets_end_and_flag (r : RevenueAccount) (m : Option String)
    (r' : RevenueAccount) (h : extend_revenue_view r m = .ok r') :
    m = some r'.end_month ∧ r'.is_extended = true ∧
    (∀ m2 r'', extend_revenue_view r' m2 = .ok r'' → r''.is_extended = true) := by
  obtain ⟨v, rfl, hv, rfl⟩ := extend_revenue_view_ok r m r' h
  refine ⟨rfl, rfl, ?_⟩
  intro m2 r'' h2
  obtain ⟨w, rfl, hw, rfl⟩ := extend_revenue_view_ok _ m2 r'' h2
  rfl

/-- Witness for C3: extending a concrete revenue account to `"2026"` succeeds,
and the theorem yields the flag and end-period facts at that input. -/
theorem C3_extend_sets_end_and_flag_witness :
    (some "2026" : Option String) =
      some ({ (⟨1, 1, none, "1.1 - Taxa", 1000, "2024", "2024", "2024", "2024", false⟩ :
          RevenueAccount) with end_month := "2026", is_extended := true }).end_month ∧
    ({ (⟨1, 1, none, "1.1 - Taxa", 1000, "2024", "2024", "2024", "2024", false⟩ :
          RevenueAccount) with end_month := "2026", is_extended := true }).is_extended = true := by
  have h := C3_extend_sets_end_and_flag
    ⟨1, 1, none, "1.1 - Taxa", 1000, "2024", "2024", "2024", "2024", false⟩
    (some "2026") _ rfl
  exact ⟨h.1, h.2.1⟩

/-- C10: a successful `extendRevenue` changes nothing besides `end_month` and
`is_extended`: the monthly amount, start period, fiscal-year window, account
name, linked account and owning building keep their prior values. -/
theorem C10_extend_frame (r : RevenueAccount) (m : Option String)
    (r' : RevenueAccount) (h : extend_revenue_view r m = .ok r') :
    r'.monthly_amount = r.monthly_amount ∧ r'.start_month = r.start_month ∧
    r'.fiscal_year_start = r.fiscal_year_start ∧ r'.fiscal_year_end = r.fiscal_year_end ∧
    r'.account_name = r.account_name ∧ r'.account_id = r.account_id ∧
    r'.building_id = r.building_id ∧ r'.id = r.id := by
  obtain ⟨v, rfl, hv, rfl⟩ := extend_revenue_view_ok r m r' h
  exact ⟨rfl, rfl, rfl, rfl, rfl, rfl, rfl, rfl⟩

/-- Witness for C10 at a concrete successful extension. -/
theorem C10_extend_frame_witness :
    ({ (⟨5, 3, some 9, "2.1 - Fundo", 250, "2024", "2024", "2024", "2025", false⟩ :
        RevenueAccount) with end_month := "2026", is_extended := true }).monthly_amount = 250 ∧
    ({ (⟨5, 3, some 9, "2.1 - Fundo", 250, "2024", "2024", "2024", "2025", false⟩ :
        RevenueAccount) with end_month := "2026", is_extended := true }).building_id = 3 := by
  have h := C10_extend_frame
    ⟨5, 3, some 9, "2.1 - Fundo", 250, "2024", "2024", "2024", "2025", false⟩
    (some "2026") _ rfl
  exact ⟨h.1.trans rfl, h.2.2.2.2.2.2.1.trans rfl⟩

/-- C9 counterexample: `createAccount` (`financial_account_view` POST through
`FinancialMainAccountSerializer`) accepts an extraordinary balance
classification without any balance name — the serializer declares no
`balanceName` field and no `validate` — and the account **is** created. -/
theorem C9_counterexample :
    financial_account_view_post [] 1
        ⟨1, "3.1", "Reserva extra", "main", none, 0, 0, some "extraordinary"⟩ =
      .ok ⟨1, 1, "3.1", "Reserva extra", "main", none, 0, 0, "extraordinary"⟩ := by
  rfl

/-- C9 (amended): the extraordinary-requires-name rule is enforced on
account-**balance** creation, not on account creation: for every
`account_balance_view` POST whose balance classification is extraordinary and
whose `balanceName` is absent or empty, the request fails with a
`ValidationError` and no balance record is created. -/
theorem C9_extraordinary_balance_needs_name (req : AccountBalanceRequest) (nid : Nat)
    (hext : req.balanceType = some "extraordinary")
    (hname : req.balanceName = none ∨ req.balanceName = some "") :
    account_balance_view_post nid req =
      .error (.validation "Balance name is required for extraordinary balances") := by
  unfold account_balance_view_post AccountBalanceSerializer_validate
  rcases hname with hname | hname <;> simp [hext, hname]

/-- Witness for C9 at a concrete extraordinary request without a name. -/
theorem C9_extraordinary_balance_needs_name_witness :
    account_balance_view_post 1 ⟨1, "1.1 - Caixa", "2025-06", 100, 0,
        some "extraordinary", none⟩ =
      .error (.validation "Balance name is required for extraordinary balances") :=
  C9_extraordinary_balance_needs_name
    ⟨1, "1.1 - Caixa", "2025-06", 100, 0, some "extraordinary", none⟩ 1 rfl (Or.inl rfl)

/-- C7 counterexample: when the building has no `RevenueAccount`,
`ExpenseEntry.save` does not reset the derived flag to `false` — it leaves the
field untouched, so an entry whose flag is already `true` keeps it after the
save. -/
theorem C7_counterexample :
    (ExpenseEntry.save ⟨1, 1, "maintenance", "Energia", 10, "2030-01", "", true⟩
        []).is_outside_fiscal_period ≠ false := by
  decide

/-- C7 (amended): on every `ExpenseEntry` save on a building with at least one
`RevenueAccount`, the derived flag is set to
`reference_month < fiscalStart ∨ reference_month > fiscalEnd`, with the window
taken from the first revenue account found and compared as strings; when the
building has no `RevenueAccount`, the save leaves the flag unchanged — in
particular it is `false` after the save of a newly created entry, whose model
default is `false`. -/
theorem C7_expense_flag_on_save (e : ExpenseEntry) (revs : List RevenueAccount) :
    (∀ first rest, revs = first :: rest →
      (ExpenseEntry.save e revs).is_outside_fiscal_period =
        decide (e.reference_month < first.fiscal_year_start ∨
                first.fiscal_year_end < e.reference_month)) ∧
    (revs = [] → ExpenseEntry.save e revs = e) ∧
    (∀ id bid pa an amt m d,
      (ExpenseEntry.create id bid pa an amt m d []).is_outside_fiscal_period = false) := by
  refine ⟨?_, ?_, ?_⟩
  · rintro first rest rfl
    rfl
  · rintro rfl
    rfl
  · intro id bid pa an amt m d
    rfl

/-- Witness for C7: the flag computation at a concrete entry and revenue
account, and the default for a freshly created entry with no revenue account. -/
theorem C7_expense_flag_on_save_witness :
    (ExpenseEntry.save ⟨1, 1, "maintenance", "Energia", 10, "2030-01", "", false⟩
        [⟨1, 1, none, "r", 100, "2024", "2025", "2024", "2025", false⟩]).is_outside_fiscal_period =
      decide (("2030-01" : String) < "2024" ∨ ("2025" : String) < "2030-01") ∧
    (ExpenseEntry.create 2 1 "contracts" "Portaria" 50 "2025-03" "" []).is_outside_fiscal_period
      = false := by
  have h := C7_expense_flag_on_save
    ⟨1, 1, "maintenance", "Energia", 10, "2030-01", "", false⟩
    [⟨1, 1, none, "r", 100, "2024", "2025", "2024", "2025", false⟩]
  exact ⟨h.1 _ _ rfl, h.2.2 2 1 "contracts" "Portaria" 50 "2025-03" ""⟩

/-- C6: for a building with zero units, `validateFractions` answers exactly
`{isValid: true, totalFraction: 0.0, unitCount: 0}` and `calculateFees` fails
with a not-found error for every reference month. -/
theorem C6_zero_units (units : List building_mgmt.Unit) (revs : List RevenueAccount)
    (charges : List AdditionalCharge) (bid : Nat) (m : String)
    (h : units.filter (fun u => u.building_id = bid) = []) :
    validate_fractions_view units bid = { isValid := true, totalFraction := 0, unitCount := 0 } ∧
    calculate_fees_view units revs charges bid m =
      .error (.notFound "No units found for this building") := by
  constructor
  · unfold validate_fractions_view
    simp [h]
  · unfold calculate_fees_view
    simp [h]

/-- Witness for C6: a unit directory containing only a unit of another
building, queried for building 1. -/
theorem C6_zero_units_witness :
    validate_fractions_view [⟨1, 2, "101", none, 1⟩] 1 =
      { isValid := true, totalFraction := 0, unitCount := 0 } ∧
    calculate_fees_view [⟨1, 2, "101", none, 1⟩] [] [] 1 "2025-06" =
      .error (.notFound "No units found for this building") :=
  C6_zero_units [⟨1, 2, "101", none, 1⟩] [] [] 1 "2025-06" (by rfl)


/-- Folding "add when the condition holds" equals the sum over the filtered
sublist. -/
theorem foldl_if_add {α : Type} (p : α → Prop) [DecidablePred p] (g : α → ℚ) :
    ∀ (l : List α) (init : ℚ),
      l.foldl (fun acc r => if p r then acc + g r else acc) init
        = init + ((l.filter (fun r => p r)).map g).sum := by
  intro l
  induction l with
  | nil => simp
  | cons r rs ih =>
    intro init
    simp only [List.foldl_cons, List.filter_cons, decide_eq_true_eq]
    by_cases h : p r
    · rw [if_pos h, if_pos h, ih, List.map_cons, List.sum_cons]
      ring
    · rw [if_neg h, if_neg h, ih]

/-- The regular-budget loop sums exactly the revenue accounts covering the
year portion of the reference month. -/
theorem total_regular_budget_calc_eq (revs : List RevenueAccount) (m : String) :
    total_regular_budget_calc revs m =
      ((revs.filter (fun r =>
        r.start_month ≤ m.take 4 ∧ m.take 4 ≤ r.end_month)).map (·.monthly_amount)).sum := by
  calc total_regular_budget_calc revs m
      = revs.foldl (fun acc r =>
          if r.start_month ≤ m.take 4 ∧ m.take 4 ≤ r.end_month then
            acc + r.monthly_amount else acc) 0 := rfl
    _ = 0 + ((revs.filter (fun r =>
          r.start_month ≤ m.take 4 ∧ m.take 4 ≤ r.end_month)).map (·.monthly_amount)).sum :=
        foldl_if_add _ _ revs 0
    _ = _ := zero_add _

/-- C5: `calculateFees` computes `totalRegularBudget` as the sum of
`monthly_amount` over exactly the building's revenue accounts whose period
covers the year portion of the reference month under string comparison
(`start ≤ YYYY ≤ end`); the month portion never affects the selection; and
after extending a `start="2024"`, `end="2024"` account to `"2026"`, a
`calculateFees` call for `"2025-06"` includes its monthly amount. -/
theorem C5_regular_budget_year_granularity :
    (∀ units revs charges bid m resp,
      calculate_fees_view units revs charges bid m = .ok resp →
      resp.totalRegularBudget =
        total_regular_budget_calc (revs.filter (fun r => r.building_id = bid)) m) ∧
    (∀ revs m, total_regular_budget_calc revs m =
      ((revs.filter (fun r =>
          r.start_month ≤ m.take 4 ∧ m.take 4 ≤ r.end_month)).map (·.monthly_amount)).sum) ∧
    (∀ revs m m', m.take 4 = m'.take 4 →
      total_regular_budget_calc revs m = total_regular_budget_calc revs m') ∧
    (∀ (r r' : RevenueAccount) (revs : List RevenueAccount),
      r.start_month = "2024" → extend_revenue_view r (some "2026") = .ok r' →
      total_regular_budget_calc (revs ++ [r']) "2025-06" =
        total_regular_budget_calc revs "2025-06" + r.monthly_amount) := by
  refine ⟨?_, total_regular_budget_calc_eq, ?_, ?_⟩
  · intro units revs charges bid m resp hok
    unfold calculate_fees_view at hok
    by_cases he : (units.filter (fun u => u.building_id = bid)).isEmpty
    · rw [if_pos he] at hok
      exact absurd hok (by simp)
    · rw [if_neg he] at hok
      injection hok with h
      rw [← h]
  · intro revs m m' h
    rw [total_regular_budget_calc_eq, total_regular_budget_calc_eq, h]
  · intro r r' revs hstart hok
    obtain ⟨v, hv, hne, rfl⟩ := extend_revenue_view_ok r _ r' hok
    obtain rfl : v = "2026" := by injection hv.symm
    rw [total_regular_budget_calc_eq, total_regular_budget_calc_eq,
      List.filter_append, List.map_append, List.sum_append]
    have h1 : ("2024" : String) ≤ "2025-06".take 4 := by
      rw [String.le_iff_toList_le]
      decide
    have h2 : "2025-06".take 4 ≤ ("2026" : String) := by
      rw [String.le_iff_toList_le]
      decide
    have hpred :
        ({ r with end_month := "2026", is_extended := true } : RevenueAccount).start_month ≤
            "2025-06".take 4 ∧
          "2025-06".take 4 ≤
            ({ r with end_month := "2026", is_extended := true } : RevenueAccount).end_month := by
      refine ⟨?_, h2⟩
      show r.start_month ≤ _
      rw [hstart]
      exact h1
    rw [List.filter_cons_of_pos (by simpa using hpred), List.filter_nil]
    simp

/-- Witness for C5: the extension scenario at concrete values — after the
extension, the `"2025-06"` budget over just that account equals its monthly
amount. -/
theorem C5_regular_budget_year_granularity_witness :
    total_regular_budget_calc
        ([] ++ [{ (⟨7, 1, none, "1.9 - Taxa", 1000, "2024", "2024", "2024", "2024", false⟩ :
            RevenueAccount) with end_month := "2026", is_extended := true }]) "2025-06" =
      total_regular_budget_calc [] "2025-06" + 1000 :=
  C5_regular_budget_year_granularity.2.2.2
    ⟨7, 1, none, "1.9 - Taxa", 1000, "2024", "2024", "2024", "2024", false⟩
    _ [] rfl rfl

/-- C8: with at least one completed month and positive total revenue, the
budget-health flag is green iff the projected annual spend is at most the
total revenue, yellow iff it exceeds it with an overrun of at most 20 %, and
red otherwise; with zero completed months or zero total revenue no flag is
produced. -/
theorem C8_budget_health_flag_spec :
    (∀ (md : List MonthlyEntry) (tr : ℚ),
      0 < completed_months md → 0 < tr →
      (budget_health_flag md tr = some .green ↔ projected_annual md ≤ tr) ∧
      (budget_health_flag md tr = some .yellow ↔
        tr < projected_annual md ∧ overrun_pct md tr ≤ 20) ∧
      (budget_health_flag md tr = some .red ↔
        tr < projected_annual md ∧ 20 < overrun_pct md tr)) ∧
    (∀ (md : List MonthlyEntry) (tr : ℚ),
      completed_months md = 0 ∨ tr = 0 → budget_health_flag md tr = none) := by
  constructor
  · intro md tr hc htr
    have hb : budget_health_flag md tr =
        some (if projected_annual md ≤ tr then BudgetFlag.green
              else if overrun_pct md tr ≤ 20 then BudgetFlag.yellow
              else BudgetFlag.red) := by
      unfold budget_health_flag
      rw [if_pos ⟨hc, htr⟩]
      have hpct : ((projected_annual md / tr) * 100) - 100 = overrun_pct md tr := by
        unfold overrun_pct
        ring
      show some (if projected_annual md ≤ tr then BudgetFlag.green
            else if ((projected_annual md / tr) * 100) - 100 ≤ 20 then BudgetFlag.yellow
            else BudgetFlag.red) = _
      rw [hpct]
    by_cases hg : projected_annual md ≤ tr
    · rw [hb, if_pos hg]
      exact ⟨by simp [hg], by simp [hg.not_lt], by simp [hg.not_lt]⟩
    · by_cases hy : overrun_pct md tr ≤ 20
      · rw [hb, if_neg hg, if_pos hy]
        exact ⟨by simp [hg], by simp [not_le.1 hg, hy], by simp [hy.not_lt]⟩
      · rw [hb, if_neg hg, if_neg hy]
        exact ⟨by simp [hg], by simp [hy], by simp [not_le.1 hg, not_le.1 hy]⟩
  · intro md tr h
    have hcond : ¬(0 < (md.filter (fun m => 0 < m.totalExpense)).length ∧ 0 < tr) := by
      rintro ⟨h1, h2⟩
      rcases h with h | h
      · have h1' : 0 < completed_months md := h1
        rw [h] at h1'
        exact lt_irrefl 0 h1'
      · rw [h] at h2
        exact lt_irrefl 0 h2
    unfold budget_health_flag
    rw [if_neg hcond]

/-- Witness for C8: a two-month window with one completed month, expenses 60,
revenue 100 — projection 120 exceeds revenue by exactly 20 %, so the flag is
yellow. -/
theorem C8_budget_health_flag_spec_witness :
    budget_health_flag [⟨"2025-01", 60⟩, ⟨"2025-02", 0⟩] 100 = some .yellow :=
  ((C8_budget_health_flag_spec.1 [⟨"2025-01", 60⟩, ⟨"2025-02", 0⟩] 100
      (by decide)
      (by norm_num)).2.1).2
    (by
      constructor
      · show (100 : ℚ) < projected_annual [⟨"2025-01", 60⟩, ⟨"2025-02", 0⟩]
        unfold projected_annual completed_months
        norm_num
      · show overrun_pct [⟨"2025-01", 60⟩, ⟨"2025-02", 0⟩] 100 ≤ 20
        unfold overrun_pct projected_annual completed_months
        norm_num)

/-- Half-up rounding to 2 decimals moves a value by at most 1/200. -/
theorem round2_sub_abs (x : ℚ) : |round2 x - x| ≤ 1/200 := by
  unfold round2
  rw [abs_le]
  have h1 := Int.floor_le (x * 100 + 1/2)
  have h2 := Int.lt_floor_add_one (x * 100 + 1/2)
  constructor <;> linarith

/-- Summing the per-unit rounded fees stays within 1/100 per unit of the
unrounded apportionment. -/
theorem sum_round2_apportion (R A : ℚ) :
    ∀ l : List ℚ,
      |(l.map (fun f => round2 (R * f + A * f))).sum - (R + A) * l.sum| ≤
        (1/100) * (l.length : ℚ) := by
  intro l
  induction l with
  | nil => simp
  | cons f fs ih =>
    simp only [List.map_cons, List.sum_cons, List.length_cons]
    have h1 := round2_sub_abs (R * f + A * f)
    calc |round2 (R * f + A * f) + (fs.map (fun f => round2 (R * f + A * f))).sum -
            (R + A) * (f + fs.sum)|
        = |(round2 (R * f + A * f) - (R * f + A * f)) +
            ((fs.map (fun f => round2 (R * f + A * f))).sum - (R + A) * fs.sum)| := by
          congr 1
          ring
      _ ≤ |round2 (R * f + A * f) - (R * f + A * f)| +
            |(fs.map (fun f => round2 (R * f + A * f))).sum - (R + A) * fs.sum| :=
          abs_add _ _
      _ ≤ 1/200 + (1/100) * (fs.length : ℚ) := add_le_add h1 ih
      _ ≤ (1/100) * ((fs.length : ℚ) + 1) := by linarith
      _ = (1/100) * ((fs.length + 1 : ℕ) : ℚ) := by push_cast; ring

/-- The fee rows built by `calculate_fees_view` conserve the collection total
up to rounding, whenever the ideal fractions sum to one. -/
theorem unitFees_conservation (R A : ℚ) (us : List building_mgmt.Unit)
    (hsum : (us.map (·.ideal_fraction)).sum = 1) :
    |((us.map (fun u =>
        ({ unitId := u.id, unitNumber := u.number, ownerName := u.owner.getD "",
           idealFraction := u.ideal_fraction,
           regularFee := round2 (R * u.ideal_fraction),
           additionalFee := round2 (A * u.ideal_fraction),
           totalFee := round2 (R * u.ideal_fraction + A * u.ideal_fraction) } : UnitFee))).map
        (·.totalFee)).sum - (R + A)| ≤ (1/100) * (us.length : ℚ) := by
  rw [List.map_map]
  have hcomp : us.map ((fun x : UnitFee => x.totalFee) ∘ (fun u =>
      ({ unitId := u.id, unitNumber := u.number, ownerName := u.owner.getD "",
         idealFraction := u.ideal_fraction,
         regularFee := round2 (R * u.ideal_fraction),
         additionalFee := round2 (A * u.ideal_fraction),
         totalFee := round2 (R * u.ideal_fraction + A * u.ideal_fraction) } : UnitFee))) =
      (us.map (·.ideal_fraction)).map (fun f => round2 (R * f + A * f)) := by
    rw [List.map_map]
    rfl
  rw [hcomp]
  have hb := sum_round2_apportion R A (us.map (·.ideal_fraction))
  rw [hsum, mul_one, List.length_map] at hb
  exact hb

/-- C4 counterexample: with a single unit whose ideal fraction is 1/2 (and
nothing constraining fractions to sum to 1), `calculateFees` succeeds but the
per-unit fees sum to half the monthly collection — far outside the
`0.01 × unitCount` tolerance. -/
theorem C4_counterexample :
    calculate_fees_view [⟨1, 1, "101", none, 1/2⟩] []
        [⟨1, 1, "Obra extra", "", 100, "2025-06", true⟩] 1 "2025-06" =
      .ok ⟨1, "2025-06", 0, 100, 100, 1/2, false, [⟨1, "101", "", 1/2, 0, 50, 50⟩]⟩ ∧
    ¬(|(([⟨1, "101", "", 1/2, 0, 50, 50⟩] : List UnitFee).map (·.totalFee)).sum -
        (100 : ℚ)| ≤ (1/100) * 1) := by
  constructor
  · unfold calculate_fees_view total_regular_budget_calc
    norm_num [round2]
    rw [abs_of_nonneg (by norm_num : (0:ℚ) ≤ 1/2)]
    norm_num
  · simp only [List.map_cons, List.map_nil, List.sum_cons, List.sum_nil]
    rw [show |(50 : ℚ) + 0 - 100| = 50 by rw [abs_of_nonpos] <;> norm_num]
    norm_num

/-- C4 (amended): whenever the building's units' ideal fractions sum to
exactly 1, the per-unit fees returned by a successful `calculateFees` call
conserve the total: the sum of `totalFee` over all units differs from
`totalMonthlyCollection` by at most `0.01 × unitCount`, each fee being the
unit's ideal fraction of the respective total rounded to 2 decimal places. -/
theorem C4_fee_conservation (units : List building_mgmt.Unit)
    (revs : List RevenueAccount) (charges : List AdditionalCharge) (bid : Nat)
    (m : String) (resp : FeesResponse)
    (hok : calculate_fees_view units revs charges bid m = .ok resp)
    (hsum : ((units.filter (fun u => u.building_id = bid)).map (·.ideal_fraction)).sum = 1) :
    |(resp.unitFees.map (·.totalFee)).sum - resp.totalMonthlyCollection| ≤
      (1/100) * (resp.unitFees.length : ℚ) := by
  unfold calculate_fees_view at hok
  by_cases he : (units.filter (fun u => u.building_id = bid)).isEmpty
  · rw [if_pos he] at hok
    exact absurd hok (by simp)
  · rw [if_neg he] at hok
    injection hok with h
    subst h
    rw [List.length_map]
    exact unitFees_conservation _ _ (units.filter (fun u => u.building_id = bid)) hsum

/-- Witness for C4: one unit with ideal fraction 1, one active additional
charge of 100 — the rounded fee sum equals the collection exactly. -/
theorem C4_fee_conservation_witness :
    abs ((((⟨1, "2025-06", 0, 100, 100, 1, true,
          [⟨1, "101", "", 1, 0, 100, 100⟩]⟩ : FeesResponse)).unitFees.map
        (·.totalFee)).sum -
      ((⟨1, "2025-06", 0, 100, 100, 1, true,
          [⟨1, "101", "", 1, 0, 100, 100⟩]⟩ : FeesResponse)).totalMonthlyCollection) ≤
      (1/100) *
        (((⟨1, "2025-06", 0, 100, 100, 1, true,
          [⟨1, "101", "", 1, 0, 100, 100⟩]⟩ : FeesResponse)).unitFees.length : ℚ) :=
  C4_fee_conservation [⟨1, 1, "101", none, 1⟩] []
    [⟨1, 1, "Obra extra", "", 100, "2025-06", true⟩] 1 "2025-06" _
    (by
      unfold calculate_fees_view total_regular_budget_calc
      norm_num [round2])
    (by norm_num)

/-- C2: updating an existing transaction of amount `a` on account X to amount
`b` on a different account Y subtracts `a` from X's `actual_amount` and adds
`b` to Y's; when the account is unchanged, it adds exactly `b - a` to the
account's `actual_amount`. -/
theorem C2_update_transaction_amounts (X Y : FinancialMainAccount)
    (ts : List FinancialAccountTransaction) (t : FinancialAccountTransaction)
    (tid : Nat) (b : ℚ)
    (hfind : ts.find? (fun u => u.id = tid) = some t)
    (hacc : t.account_id = X.id) (hne : Y.id ≠ X.id) :
    updateTransaction ⟨[X, Y], ts⟩ tid ⟨some Y.id, some b, none, none⟩ =
      some ⟨[{ X with actual_amount := X.actual_amount - t.amount },
             { Y with actual_amount := Y.actual_amount + b }],
            ts.map (fun u =>
              if u.id = tid then applyPatch u Y.id b ⟨some Y.id, some b, none, none⟩ else u)⟩ ∧
    updateTransaction ⟨[X, Y], ts⟩ tid ⟨some X.id, some b, none, none⟩ =
      some ⟨[{ X with actual_amount := X.actual_amount + (b - t.amount) }, Y],
            ts.map (fun u =>
              if u.id = tid then applyPatch u X.id b ⟨some X.id, some b, none, none⟩ else u)⟩ := by
  constructor
  · simp only [updateTransaction, hfind, findAccount, adjustAccount, hacc]
    simp [hne, Ne.symm hne, List.find?_cons, sub_eq_add_neg]
  · simp only [updateTransaction, hfind, findAccount, adjustAccount, hacc]
    simp [hne, Ne.symm hne, List.find?_cons]

/-- Witness for C2 (Scenario C): a 50.00 transaction on account X (balance
100) moved to account Y (balance 200) with new amount 80.00 leaves X at 50.00
and Y at 280.00. -/
theorem C2_update_transaction_amounts_witness :
    (updateTransaction
        ⟨[⟨1, 1, "1.1", "Conta A", "main", none, 0, 100, "ordinary"⟩,
          ⟨2, 1, "1.2", "Conta B", "main", none, 0, 200, "ordinary"⟩],
         [⟨7, 1, 1, 50, "2025-01", ""⟩]⟩ 7 ⟨some 2, some 80, none, none⟩).map
      (fun s => s.accounts.map (·.actual_amount)) = some [50, 280] := by
  have h := (C2_update_transaction_amounts
    ⟨1, 1, "1.1", "Conta A", "main", none, 0, 100, "ordinary"⟩
    ⟨2, 1, "1.2", "Conta B", "main", none, 0, 200, "ordinary"⟩
    [⟨7, 1, 1, 50, "2025-01", ""⟩] ⟨7, 1, 1, 50, "2025-01", ""⟩ 7 80
    rfl rfl (by decide)).1
  rw [show updateTransaction
        ⟨[⟨1, 1, "1.1", "Conta A", "main", none, 0, 100, "ordinary"⟩,
          ⟨2, 1, "1.2", "Conta B", "main", none, 0, 200, "ordinary"⟩],
         [⟨7, 1, 1, 50, "2025-01", ""⟩]⟩ 7 ⟨some 2, some 80, none, none⟩ =
      some ⟨[⟨1, 1, "1.1", "Conta A", "main", none, 0, 100 - 50, "ordinary"⟩,
             ⟨2, 1, "1.2", "Conta B", "main", none, 0, 200 + 80, "ordinary"⟩],
            [⟨7, 2, 1, 80, "2025-01", ""⟩]⟩ from h]
  simp only [Option.map_some']
  norm_num

theorem txSum_cons (t : FinancialAccountTransaction) (ts : List FinancialAccountTransaction)
    (aid : Nat) :
    txSum (t :: ts) aid = (if t.account_id = aid then t.amount else 0) + txSum ts aid := by
  unfold txSum
  by_cases h : t.account_id = aid
  · simp [List.filter_cons, h]
  · simp [List.filter_cons, h]

theorem adjustAccount_mem {accounts : List FinancialMainAccount} {aid : Nat} {d : ℚ}
    {a' : FinancialMainAccount} (h : a' ∈ adjustAccount accounts aid d) :
    ∃ a ∈ accounts, a'.id = a.id ∧
      a'.actual_amount = a.actual_amount + (if a.id = aid then d else 0) := by
  unfold adjustAccount at h
  obtain ⟨a, ha, rfl⟩ := List.mem_map.1 h
  by_cases hid : a.id = aid
  · exact ⟨a, ha, by simp [hid], by simp [hid]⟩
  · exact ⟨a, ha, by simp [hid], by simp [hid]⟩

theorem map_untouched (tid naid : Nat) (namt : ℚ) (patch : TransactionPatch) :
    ∀ (us : List FinancialAccountTransaction), (∀ x ∈ us, x.id ≠ tid) →
      us.map (fun x => if x.id = tid then applyPatch x naid namt patch else x) = us := by
  intro us
  induction us with
  | nil => intro _; rfl
  | cons x xs ih =>
    intro h
    rw [List.map_cons, if_neg (h x (List.mem_cons_self x xs)),
      ih (fun y hy => h y (List.mem_cons_of_mem x hy))]

theorem filter_untouched (tid : Nat) :
    ∀ (us : List FinancialAccountTransaction), (∀ x ∈ us, x.id ≠ tid) →
      us.filter (fun x => ¬ x.id = tid) = us := by
  intro us
  induction us with
  | nil => intro _; rfl
  | cons x xs ih =>
    intro h
    rw [List.filter_cons_of_pos (by simpa using h x (List.mem_cons_self x xs)),
      ih (fun y hy => h y (List.mem_cons_of_mem x hy))]

theorem txSum_filter_of_find (tid : Nat) :
    ∀ (ts : List FinancialAccountTransaction), (ts.map (·.id)).Nodup →
      ∀ t, ts.find? (fun u => u.id = tid) = some t →
      ∀ aid, txSum (ts.filter (fun u => ¬ u.id = tid)) aid
        = txSum ts aid - (if t.account_id = aid then t.amount else 0) := by
  intro ts
  induction ts with
  | nil =>
    intro _ t h
    simp at h
  | cons u us ih =>
    intro hnd t hf aid
    rw [List.map_cons, List.nodup_cons] at hnd
    by_cases hu : u.id = tid
    · have ht : t = u := by
        rw [List.find?_cons_of_pos _ (by simpa using hu)] at hf
        exact (Option.some.inj hf).symm
      subst ht
      rw [List.filter_cons_of_neg (by simpa using hu)]
      have hrest : us.filter (fun x => ¬ x.id = tid) = us := by
        refine filter_untouched tid us (fun x hx hxx => ?_)
        exact hnd.1 (List.mem_map.2 ⟨x, hx, by rw [hxx, ← hu]⟩)
      rw [hrest, txSum_cons]
      ring
    · rw [List.find?_cons_of_neg _ (by simpa using hu)] at hf
      rw [List.filter_cons_of_pos (by simpa using hu), txSum_cons, txSum_cons,
        ih hnd.2 t hf aid]
      ring

theorem txSum_map_update (tid naid : Nat) (namt : ℚ) (patch : TransactionPatch) :
    ∀ (ts : List FinancialAccountTransaction), (ts.map (·.id)).Nodup →
      ∀ t, ts.find? (fun u => u.id = tid) = some t →
      ∀ aid, txSum (ts.map (fun u => if u.id = tid then applyPatch u naid namt patch else u)) aid
        = txSum ts aid - (if t.account_id = aid then t.amount else 0)
          + (if naid = aid then namt else 0) := by
  intro ts
  induction ts with
  | nil =>
    intro _ t h
    simp at h
  | cons u us ih =>
    intro hnd t hf aid
    rw [List.map_cons, List.nodup_cons] at hnd
    by_cases hu : u.id = tid
    · have ht : t = u := by
        rw [List.find?_cons_of_pos _ (by simpa using hu)] at hf
        exact (Option.some.inj hf).symm
      subst ht
      rw [List.map_cons, if_pos hu]
      have hrest : us.map (fun x => if x.id = tid then applyPatch x naid namt patch else x) = us := by
        refine map_untouched tid naid namt patch us (fun x hx hxx => ?_)
        exact hnd.1 (List.mem_map.2 ⟨x, hx, by rw [hxx, ← hu]⟩)
      rw [hrest, txSum_cons, txSum_cons]
      show (if naid = aid then namt else 0) + txSum us aid = _
      ring
    · rw [List.find?_cons_of_neg _ (by simpa using hu)] at hf
      rw [List.map_cons, if_neg hu, txSum_cons, txSum_cons, ih hnd.2 t hf aid]
      ring

theorem map_update_ids (tid naid : Nat) (namt : ℚ) (patch : TransactionPatch)
    (ts : List FinancialAccountTransaction) :
    (ts.map (fun u => if u.id = tid then applyPatch u naid namt patch else u)).map (·.id)
      = ts.map (·.id) := by
  induction ts with
  | nil => rfl
  | cons u us ih =>
    rw [List.map_cons, List.map_cons, List.map_cons, ih]
    congr 1
    by_cases h : u.id = tid
    · rw [if_pos h]
      rfl
    · rw [if_neg h]

theorem filter_ids_nodup (ts : List FinancialAccountTransaction)
    (p : FinancialAccountTransaction → Bool) (h : (ts.map (·.id)).Nodup) :
    ((ts.filter p).map (·.id)).Nodup :=
  h.sublist ((ts.filter_sublist (p := p)).map (·.id))

theorem postTransaction_preserves {s s' : LedgerState} {tid aid bid : Nat} {amount : ℚ}
    {m d : String} (hinv : ledgerInvariant s) (hnd : txIdsNodup s)
    (h : postTransaction s tid aid bid amount m d = some s') :
    ledgerInvariant s' ∧ txIdsNodup s' := by
  unfold postTransaction at h
  split at h
  · exact absurd h (by simp)
  next hmem =>
    split at h
    · exact absurd h (by simp)
    · injection h with h
      subst h
      constructor
      · intro a' ha'
        obtain ⟨a, ha, hid, hact⟩ := adjustAccount_mem ha'
        rw [hid, txSum_cons]
        rw [hinv a ha] at hact
        rw [hact]
        show txSum s.transactions a.id + _ = (if aid = a.id then amount else 0) + _
        by_cases haa : a.id = aid
        · rw [if_pos haa, if_pos haa.symm]
          ring
        · rw [if_neg haa, if_neg (fun hh => haa hh.symm), add_zero, zero_add]
      · show (tid :: s.transactions.map (·.id)).Nodup
        rw [List.nodup_cons]
        exact ⟨hmem, hnd⟩

theorem deleteTransaction_preserves {s s' : LedgerState} {tid : Nat}
    (hinv : ledgerInvariant s) (hnd : txIdsNodup s)
    (h : deleteTransaction s tid = some s') :
    ledgerInvariant s' ∧ txIdsNodup s' := by
  unfold deleteTransaction at h
  split at h
  · exact absurd h (by simp)
  next t hf =>
    split at h
    · exact absurd h (by simp)
    · injection h with h
      subst h
      constructor
      · intro a' ha'
        obtain ⟨a, ha, hid, hact⟩ := adjustAccount_mem ha'
        rw [hid, txSum_filter_of_find tid s.transactions hnd t hf a.id]
        rw [hinv a ha] at hact
        rw [hact]
        by_cases hta : a.id = t.account_id
        · rw [if_pos hta, if_pos hta.symm]
          ring
        · rw [if_neg hta, if_neg (fun hh => hta hh.symm), add_zero, sub_zero]
      · exact filter_ids_nodup s.transactions _ hnd

theorem updateTransaction_preserves {s s' : LedgerState} {tid : Nat}
    {patch : TransactionPatch}
    (hinv : ledgerInvariant s) (hnd : txIdsNodup s)
    (h : updateTransaction s tid patch = some s') :
    ledgerInvariant s' ∧ txIdsNodup s' := by
  unfold updateTransaction at h
  split at h
  · exact absurd h (by simp)
  next inst hf =>
    split at h
    · exact absurd h (by simp)
    next oldA hfa =>
      simp only [] at h
      split at h
      case isTrue heq =>
        injection h with h
        subst h
        constructor
        · intro a' ha'
          obtain ⟨a, ha, hid, hact⟩ := adjustAccount_mem ha'
          rw [hid, txSum_map_update tid _ _ patch s.transactions hnd inst hf a.id, heq]
          rw [hinv a ha] at hact
          rw [hact]
          by_cases haa : a.id = inst.account_id
          · rw [if_pos haa, if_pos haa.symm, if_pos haa.symm]
            ring
          · rw [if_neg haa, if_neg (fun hh => haa hh.symm), if_neg (fun hh => haa hh.symm),
              add_zero, sub_zero, add_zero]
        · show ((s.transactions.map (fun u => if u.id = tid then
              applyPatch u (patch.account_id.getD inst.account_id)
                (patch.amount.getD inst.amount) patch else u)).map (·.id)).Nodup
          rw [map_update_ids]
          exact hnd
      case isFalse hne =>
        split at h
        · exact absurd h (by simp)
        next newA hfn =>
          injection h with h
          subst h
          constructor
          · intro a' ha'
            obtain ⟨a1, ha1, hid1, hact1⟩ := adjustAccount_mem ha'
            obtain ⟨a, ha, hid2, hact2⟩ := adjustAccount_mem ha1
            rw [hid1, hid2,
              txSum_map_update tid _ _ patch s.transactions hnd inst hf a.id]
            rw [hinv a ha] at hact2
            rw [hact1, hact2, hid2]
            by_cases h1 : a.id = inst.account_id
            · by_cases h2 : a.id = patch.account_id.getD inst.account_id
              · exact absurd (h2.symm.trans h1) hne
              · rw [if_pos h1, if_pos h1.symm, if_neg h2, if_neg (fun hh => h2 hh.symm)]
                ring
            · by_cases h2 : a.id = patch.account_id.getD inst.account_id
              · rw [if_neg h1, if_pos h2, if_neg (fun hh => h1 hh.symm), if_pos h2.symm]
                ring
              · rw [if_neg h1, if_neg h2, if_neg (fun hh => h1 hh.symm),
                  if_neg (fun hh => h2 hh.symm)]
                ring
          · show ((s.transactions.map (fun u => if u.id = tid then
                applyPatch u (patch.account_id.getD inst.account_id)
                  (patch.amount.getD inst.amount) patch else u)).map (·.id)).Nodup
            rw [map_update_ids]
            exact hnd

theorem applyLedger_preserves (s : LedgerState) (op : LedgerOp)
    (hinv : ledgerInvariant s) (hnd : txIdsNodup s) :
    ledgerInvariant (applyLedger s op) ∧ txIdsNodup (applyLedger s op) := by
  unfold applyLedger
  cases hstep : stepLedger s op with
  | none => exact ⟨hinv, hnd⟩
  | some s' =>
    show ledgerInvariant s' ∧ txIdsNodup s'
    cases op with
    | post tid aid bid amount m d => exact postTransaction_preserves hinv hnd hstep
    | update tid patch => exact updateTransaction_preserves hinv hnd hstep
    | delete tid => exact deleteTransaction_preserves hinv hnd hstep

theorem runLedger_preserves (ops : List LedgerOp) :
    ∀ (s : LedgerState), ledgerInvariant s → txIdsNodup s →
      ledgerInvariant (runLedger s ops) ∧ txIdsNodup (runLedger s ops) := by
  induction ops with
  | nil => exact fun s hinv hnd => ⟨hinv, hnd⟩
  | cons op ops ih =>
    intro s hinv hnd
    have h := applyLedger_preserves s op hinv hnd
    exact ih (applyLedger s op) h.1 h.2


/-- C1: for every account and every finite sequence of post, update and
delete transaction requests (including updates moving a transaction to a
different account), starting from a consistent store with distinct transaction
primary keys, every account's `actual_amount` afterwards equals the sum of the
amounts of the non-deleted transactions currently referencing it. -/
theorem C1_ledger_consistency (s : LedgerState) (ops : List LedgerOp)
    (hinv : ledgerInvariant s) (hnd : txIdsNodup s) :
    ledgerInvariant (runLedger s ops) :=
  (runLedger_preserves ops s hinv hnd).1

/-- Witness for C1: one account, then a post of 50, an amount update to 80
and a delete, starting from the empty ledger. -/
theorem C1_ledger_consistency_witness :
    ledgerInvariant
      (runLedger ⟨[⟨1, 1, "1.1", "Conta A", "main", none, 0, 0, "ordinary"⟩], []⟩
        [.post 1 1 1 50 "2025-01" "", .update 1 ⟨none, some 80, none, none⟩, .delete 1]) :=
  C1_ledger_consistency _ _
    (by
      intro a ha
      simp only [List.mem_singleton] at ha
      subst ha
      rfl)
    (by simp [txIdsNodup])
